import Mathlib

/-!
# Verification of the FreeSurfer-to-OBJ conversion pipeline

A shallow embedding of the algorithmic core of
`preprocessing/freesurfer_to_obj.py`: the subcortical worklist and mask
builder of `convert_subcortical_segmentation`, the region-splitting loop of
`convert_parcellated_regions`, the postprocessing orchestration of
`_marching_cubes_mesh`, the gradient-refinement step of
`_dual_contouring_mesh`, and the OBJ text writer.

Volumes (`aseg.mgz`, `brainmask.mgz` read through `get_fdata()`) are modelled
as flat lists of rationals (one scalar per voxel); meshes as vertex and
triangle lists.  Library calls with no logic of their own in this repository
(`skimage.measure.marching_cubes`, `trimesh` smoothing and decimation,
`scipy.ndimage.sobel`) are treated as opaque collaborators and passed in as
function parameters; the orchestration around them is translated faithfully.
-/

namespace BrainViewer

/-! ## Data model -/

/-- A triangle mesh: vertex positions and triangles indexing the vertex list
(zero-based, as produced by `read_geometry` and `marching_cubes`). -/
structure Mesh where
  vertices : List (ℚ × ℚ × ℚ)
  faces : List (ℕ × ℕ × ℕ)
deriving DecidableEq, Repr

/-! ## The subcortical worklist (`subcortical_structures`, lines 211-248)

The Python source spells the worklist as a `dict` literal.  Python dict
literals are evaluated left to right with last-write-wins semantics on
duplicate keys, and a re-assigned key keeps its original insertion position.
`dictInsert` reproduces exactly that, and `subcorticalStructures` folds the
literal's pairs, in source order, through it. -/

/-- One insertion into a Python dict modelled as an association list that
remembers insertion order: an existing key is updated in place, a new key is
appended. -/
def dictInsert (d : List (ℕ × String)) (k : ℕ) (v : String) : List (ℕ × String) :=
  if d.any (fun p => p.1 == k) then
    d.map (fun p => if p.1 == k then (k, v) else p)
  else
    d ++ [(k, v)]

/-- The `subcortical_structures` dict literal, pair by pair in source order
(note the duplicate keys 43 and 44, and the duplicate value
`Right-Thalamus` under the two keys 49 and 48). -/
def subcorticalLiteral : List (ℕ × String) :=
  [ (4, "Left-Lateral-Ventricle"),
    (5, "Left-Inf-Lat-Vent"),
    (7, "Left-Cerebellum-White-Matter"),
    (8, "Left-Cerebellum-Cortex"),
    (10, "Left-Thalamus"),
    (11, "Left-Caudate"),
    (12, "Left-Putamen"),
    (13, "Left-Pallidum"),
    (17, "Left-Hippocampus"),
    (18, "Left-Amygdala"),
    (26, "Left-Accumbens-area"),
    (49, "Right-Thalamus"),
    (43, "Right-Lateral-Ventricle"),
    (44, "Right-Inf-Lat-Vent"),
    (46, "Right-Cerebellum-White-Matter"),
    (47, "Right-Cerebellum-Cortex"),
    (48, "Right-Thalamus"),
    (50, "Right-Caudate"),
    (51, "Right-Putamen"),
    (52, "Right-Pallidum"),
    (53, "Right-Hippocampus"),
    (54, "Right-Amygdala"),
    (58, "Right-Accumbens-area"),
    (16, "Brain-Stem"),
    (28, "CSF"),
    (30, "3rd-Ventricle"),
    (31, "4th-Ventricle"),
    (43, "WM-hypointensities"),
    (44, "Left-VentralDC"),
    (45, "Right-VentralDC"),
    (60, "Optic-Chiasm"),
    (251, "CC_Posterior"),
    (252, "CC_Mid_Posterior"),
    (253, "CC_Central"),
    (254, "CC_Mid_Anterior"),
    (255, "CC_Anterior") ]

/-- The `subcortical_structures` dict as Python evaluates the literal:
iteration order and values after last-write-wins resolution of the
duplicate keys. -/
def subcorticalStructures : List (ℕ × String) :=
  subcorticalLiteral.foldl (fun d p => dictInsert d p.1 p.2) []

/-! ## Per-structure conversion (`convert_subcortical_segmentation`) -/

/-- Errors raised by `convert_subcortical_segmentation` before the
per-structure loop; `missingDependency` is the `FileNotFoundError` of
line 208 (spec taxonomy: `MissingDependency`). -/
inductive ConvError
  | missingDependency (path : String)
deriving DecidableEq, Repr

/-- Outcome of one iteration of the per-structure loop (lines 270-304).
`extracted` records the occupancy mask handed to the extractor together
with the mode and the output file name; the extractor and exporter
themselves are external library calls. -/
inductive StructResult
  | skippedEmpty
  | invalidConfig (mode : String)
  | extracted (mode : String) (mask : List Bool) (file : String)
deriving DecidableEq, Repr

/-- One iteration of the loop body of `convert_subcortical_segmentation`
(lines 270-294): build the binary mask `aseg_data == label_id`, skip when it
is empty, apply the WM-hypointensities special case (lines 281-284: the
intersection with `brainmask_data > 0` on line 283 is immediately
overwritten on line 284 by `np.where(brainmask_data, 1, 0)`, i.e. by the
truthiness/nonzeroness of the brainmask), then dispatch on the mode. -/
def processStructure (asegData brainmaskData : List ℚ) (mode : String)
    (labelId : ℕ) (structureName : String) : StructResult :=
  let mask := asegData.map (fun x => decide (x = (labelId : ℚ)))
  if !(mask.any id) then .skippedEmpty
  else
    let mask :=
      if structureName = "WM-hypointensities" then
        let mask := List.zipWith (fun m b => m && decide ((0 : ℚ) < b)) mask brainmaskData
        let mask := brainmaskData.map (fun b => decide (b ≠ 0))
        mask
      else mask
    if mode = "marching_cubes" then .extracted mode mask (structureName ++ ".obj")
    else if mode = "dual_contouring" then .extracted mode mask (structureName ++ ".obj")
    else .invalidConfig mode

/-- `convert_subcortical_segmentation` (lines 193-304), control flow around
the loop: a missing `aseg.mgz` is a warning and an early normal return
(lines 203-205); a missing `brainmask.mgz` raises `FileNotFoundError`
*before any structure is processed* (lines 206-208); otherwise every
worklist entry is processed in dict iteration order. -/
def convertSubcortical (aseg brainmask : Option (List ℚ)) (mode : String) :
    Except ConvError (List (ℕ × String × StructResult)) :=
  match aseg with
  | none => .ok []
  | some asegData =>
    match brainmask with
    | none => .error (.missingDependency "brainmask.mgz")
    | some brainmaskData =>
      .ok (subcorticalStructures.map (fun p =>
        (p.1, p.2, processStructure asegData brainmaskData mode p.1 p.2)))

/-- Files written by one structure's loop iteration: only a successful
extraction reaches the `mesh.export` call of line 299. -/
def filesOfResult : StructResult → List String
  | .extracted _ _ file => [file]
  | _ => []

/-- All files written by a subcortical conversion run, in write order. -/
def writtenFiles : Except ConvError (List (ℕ × String × StructResult)) → List String
  | .ok l => l.foldr (fun e acc => filesOfResult e.2.2 ++ acc) []
  | .error _ => []

/-- The label whose iteration wrote a given file last (writes to an existing
file overwrite it, so this is the label whose mesh survives in the output
directory). -/
def lastWriter (r : Except ConvError (List (ℕ × String × StructResult)))
    (file : String) : Option ℕ :=
  match r with
  | .ok l => l.foldl (fun acc e => if file ∈ filesOfResult e.2.2 then some e.1 else acc) none
  | .error _ => none

/-- A segmentation volume containing one voxel of every label value that
appears in the `subcortical_structures` literal, and an everywhere-positive
brainmask of the same size; used to exercise the full worklist. -/
def allLabelsVolume : List ℚ := subcorticalLiteral.map (fun p => (p.1 : ℚ))

/-- An everywhere-positive brainmask volume matching `allLabelsVolume`. -/
def positiveBrainmask : List ℚ := allLabelsVolume.map (fun _ => 1)

/-! ## Claims C1, C2, C3, C5, C6 -/

/-- C3: the `subcortical_structures` dict literal resolves duplicate keys
last-write-wins: label 43 maps to `WM-hypointensities` (not
`Right-Lateral-Ventricle`) and label 44 to `Left-VentralDC` (not
`Right-Inf-Lat-Vent`), so on a volume containing every label no
`Right-Lateral-Ventricle.obj` or `Right-Inf-Lat-Vent.obj` is ever written;
labels 49 and 48 both carry the name `Right-Thalamus`, so
`Right-Thalamus.obj` is written twice and the second write (label 48, which
follows 49 in dict iteration order) overwrites the first. -/
theorem C3_worklist_last_write_wins :
    subcorticalStructures.lookup 43 = some "WM-hypointensities" ∧
    subcorticalStructures.lookup 44 = some "Left-VentralDC" ∧
    (∀ p ∈ subcorticalStructures,
      p.2 ≠ "Right-Lateral-Ventricle" ∧ p.2 ≠ "Right-Inf-Lat-Vent") ∧
    (subcorticalStructures.filter (fun p => p.2 = "Right-Thalamus")).map Prod.fst
      = [49, 48] ∧
    (writtenFiles (convertSubcortical (some allLabelsVolume) (some positiveBrainmask)
        "marching_cubes")).count "Right-Lateral-Ventricle.obj" = 0 ∧
    (writtenFiles (convertSubcortical (some allLabelsVolume) (some positiveBrainmask)
        "marching_cubes")).count "Right-Inf-Lat-Vent.obj" = 0 ∧
    (writtenFiles (convertSubcortical (some allLabelsVolume) (some positiveBrainmask)
        "marching_cubes")).count "Right-Thalamus.obj" = 2 ∧
    lastWriter (convertSubcortical (some allLabelsVolume) (some positiveBrainmask)
        "marching_cubes") "Right-Thalamus.obj" = some 48 := by
  decide

/-- C2, counterexample: with the segmentation volume present and the
brainmask absent, `convert_subcortical_segmentation` raises
`FileNotFoundError` at line 208, *before* the per-structure loop: no list of
per-structure outcomes is produced at all, so the failure is not confined to
one structure and the run does not continue with the remaining
structures. -/
theorem C2_counterexample :
    convertSubcortical (some [(4 : ℚ)]) none "marching_cubes"
      = .error (.missingDependency "brainmask.mgz") ∧
    (convertSubcortical (some [(4 : ℚ)]) none "marching_cubes").toOption = none :=
  ⟨rfl, rfl⟩

/-- C2, amended: if the brainmask volume is absent while the segmentation
volume is present, the conversion fails with a `MissingDependency` error
(`FileNotFoundError`) raised before any structure is processed; it aborts
the entire subcortical conversion — no structure produces an outcome — and
the error propagates to the caller rather than being confined to a single
structure. -/
theorem C2_missing_brainmask_aborts_run (asegData : List ℚ) (mode : String) :
    convertSubcortical (some asegData) none mode
      = .error (.missingDependency "brainmask.mgz") := rfl

/-- C1, counterexample: for a brainmask voxel with a negative value, line 284
(`np.where(brainmask_data, 1, 0)`) marks the voxel as occupied (truthiness,
i.e. value ≠ 0), whereas the brainmask's *positivity* at that voxel is
false: with segmentation `[43]` and brainmask `[-1]`, the mask handed to
extraction is `[true]`, not the positivity mask `[false]`. -/
theorem C1_counterexample :
    processStructure [(43 : ℚ)] [(-1 : ℚ)] "marching_cubes" 43 "WM-hypointensities"
      = .extracted "marching_cubes" [true] "WM-hypointensities.obj" ∧
    ([(-1 : ℚ)].map (fun b => decide ((0 : ℚ) < b))) = [false] ∧
    [true] ≠ [(-1 : ℚ)].map (fun b => decide ((0 : ℚ) < b)) := by
  decide

/-- C1, amended: for the WM-hypointensities structure, when its target-label
mask is non-empty, the occupancy mask handed to extraction equals the
brainmask volume's *nonzeroness* (voxel value ≠ 0) at every voxel — a full
replacement that discards the original label mask, so for a fixed brainmask
the mask is independent of which voxels carry label 43. -/
theorem C1_wm_hypointensities_mask_replaced
    (asegData asegData' brainmaskData : List ℚ) (mode : String)
    (h : (asegData.map (fun x => decide (x = (43 : ℚ)))).any id = true)
    (h' : (asegData'.map (fun x => decide (x = (43 : ℚ)))).any id = true)
    (hmode : mode = "marching_cubes" ∨ mode = "dual_contouring") :
    processStructure asegData brainmaskData mode 43 "WM-hypointensities"
      = .extracted mode (brainmaskData.map (fun b => decide (b ≠ 0)))
          "WM-hypointensities.obj" ∧
    processStructure asegData brainmaskData mode 43 "WM-hypointensities"
      = processStructure asegData' brainmaskData mode 43 "WM-hypointensities" := by
  have step : ∀ aseg : List ℚ, (aseg.map (fun x => decide (x = (43 : ℚ)))).any id = true →
      processStructure aseg brainmaskData mode 43 "WM-hypointensities"
        = .extracted mode (brainmaskData.map (fun b => decide (b ≠ 0)))
            "WM-hypointensities.obj" := by
    intro aseg ha
    rcases hmode with hm | hm <;>
      simp [processStructure, ha, hm]
  exact ⟨step asegData h, by rw [step asegData h, step asegData' h']⟩

/-- Witness for `C1_wm_hypointensities_mask_replaced`: two different
segmentation volumes whose label-43 masks are non-empty yield the same
extraction mask, the brainmask's nonzeroness. -/
theorem C1_wm_hypointensities_mask_replaced_witness :
    ((([(43 : ℚ)].map (fun x => decide (x = (43 : ℚ)))).any id = true) ∧
     ((([(0 : ℚ), 43].map (fun x => decide (x = (43 : ℚ)))).any id = true))) ∧
    processStructure [(43 : ℚ)] [(2 : ℚ), -1, 0] "marching_cubes" 43 "WM-hypointensities"
      = .extracted "marching_cubes" [true, true, false] "WM-hypointensities.obj" ∧
    processStructure [(43 : ℚ)] [(2 : ℚ), -1, 0] "marching_cubes" 43 "WM-hypointensities"
      = processStructure [(0 : ℚ), 43] [(2 : ℚ), -1, 0] "marching_cubes" 43
          "WM-hypointensities" := by
  refine ⟨⟨by decide, by decide⟩, ?_⟩
  have h := C1_wm_hypointensities_mask_replaced [(43 : ℚ)] [(0 : ℚ), 43] [(2 : ℚ), -1, 0]
    "marching_cubes" (by decide) (by decide) (Or.inl rfl)
  refine ⟨?_, h.2⟩
  rw [h.1]
  decide

/-- C5: for any mode other than the two supported ones, every structure whose
label mask is non-empty fails with `InvalidConfiguration` (line 293's error
branch followed by `continue`), every structure with an empty mask is still
skipped as usual, and the run itself returns normally with an outcome for
every worklist entry — the bad mode aborts single structures, never the
run. -/
theorem C5_unknown_mode_per_structure
    (asegData brainmaskData : List ℚ) (mode : String)
    (h1 : mode ≠ "marching_cubes") (h2 : mode ≠ "dual_contouring") :
    ∃ l, convertSubcortical (some asegData) (some brainmaskData) mode = .ok l ∧
      l.length = subcorticalStructures.length ∧
      ∀ e ∈ l,
        ((asegData.map (fun x => decide (x = (e.1 : ℚ)))).any id = true →
          e.2.2 = .invalidConfig mode) ∧
        ((asegData.map (fun x => decide (x = (e.1 : ℚ)))).any id = false →
          e.2.2 = .skippedEmpty) := by
  refine ⟨_, rfl, by simp [convertSubcortical], ?_⟩
  intro e he
  simp only [convertSubcortical, List.mem_map] at he
  obtain ⟨p, -, rfl⟩ := he
  constructor
  · intro hmask
    simp [processStructure, hmask, h1, h2]
  · intro hmask
    simp [processStructure, hmask]

/-- Witness for `C5_unknown_mode_per_structure`: mode `"foo"` on a volume
containing label 4 — the run completes, and the `Left-Lateral-Ventricle`
entry fails with `InvalidConfiguration`. -/
theorem C5_unknown_mode_per_structure_witness :
    ("foo" ≠ "marching_cubes") ∧ ("foo" ≠ "dual_contouring") ∧
    ∃ l, convertSubcortical (some [(4 : ℚ)]) (some [(1 : ℚ)]) "foo" = .ok l ∧
      l.length = subcorticalStructures.length ∧
      ∀ e ∈ l,
        (([(4 : ℚ)].map (fun x => decide (x = (e.1 : ℚ)))).any id = true →
          e.2.2 = .invalidConfig "foo") ∧
        (([(4 : ℚ)].map (fun x => decide (x = (e.1 : ℚ)))).any id = false →
          e.2.2 = .skippedEmpty) :=
  ⟨by decide, by decide,
    C5_unknown_mode_per_structure [(4 : ℚ)] [(1 : ℚ)] "foo" (by decide) (by decide)⟩

/-- C6: a structure whose target label matches zero voxels is a normal skip:
its loop iteration yields `skippedEmpty` (the `continue` of line 278), writes
no file, and the run still returns normally with an outcome for every
worklist entry, including this structure's skip. -/
theorem C6_empty_mask_is_skip
    (asegData brainmaskData : List ℚ) (mode : String) (labelId : ℕ) (name : String)
    (hmem : (labelId, name) ∈ subcorticalStructures)
    (hempty : (asegData.map (fun x => decide (x = (labelId : ℚ)))).any id = false) :
    processStructure asegData brainmaskData mode labelId name = .skippedEmpty ∧
    filesOfResult (processStructure asegData brainmaskData mode labelId name) = [] ∧
    ∃ l, convertSubcortical (some asegData) (some brainmaskData) mode = .ok l ∧
      l.length = subcorticalStructures.length ∧
      (labelId, name, StructResult.skippedEmpty) ∈ l := by
  have hskip : processStructure asegData brainmaskData mode labelId name = .skippedEmpty := by
    simp [processStructure, hempty]
  refine ⟨hskip, by rw [hskip]; rfl, _, rfl, by simp [convertSubcortical], ?_⟩
  simp only [convertSubcortical, List.mem_map]
  exact ⟨(labelId, name), hmem, by rw [hskip]⟩

/-- Witness for `C6_empty_mask_is_skip`: a volume holding only label 5 has no
voxels of label 4, so `Left-Lateral-Ventricle` is skipped while the run
completes with an outcome per worklist entry. -/
theorem C6_empty_mask_is_skip_witness :
    ((4, "Left-Lateral-Ventricle") ∈ subcorticalStructures) ∧
    (([(5 : ℚ)].map (fun x => decide (x = (4 : ℚ)))).any id = false) ∧
    processStructure [(5 : ℚ)] [(1 : ℚ)] "marching_cubes" 4 "Left-Lateral-Ventricle"
      = .skippedEmpty ∧
    filesOfResult (processStructure [(5 : ℚ)] [(1 : ℚ)] "marching_cubes" 4
      "Left-Lateral-Ventricle") = [] ∧
    ∃ l, convertSubcortical (some [(5 : ℚ)]) (some [(1 : ℚ)]) "marching_cubes" = .ok l ∧
      l.length = subcorticalStructures.length ∧
      (4, "Left-Lateral-Ventricle", StructResult.skippedEmpty) ∈ l :=
  ⟨by decide, by decide,
    C6_empty_mask_is_skip [(5 : ℚ)] [(1 : ℚ)] "marching_cubes" 4 "Left-Lateral-Ventricle"
      (by decide) (by decide)⟩

/-! ## Region splitting (`convert_parcellated_regions`, lines 120-191) -/

/-- `np.where(labels == idx)[0]` (lines 157-158): the ascending list of
vertex indices carrying label `idx`. -/
def regionVertexIndices (labels : List ℤ) (idx : ℤ) : List ℕ :=
  (List.range labels.length).filter (fun v => decide (labels.getD v 0 = idx))

/-- Line 164, `np.isin(faces, region_vertex_indices).all(axis=1)` followed by
the mask application of line 165: a triangle survives iff all three of its
vertex indices are members of the region's vertex-index list. -/
def regionFacesOf (labels : List ℤ) (faces : List (ℕ × ℕ × ℕ)) (idx : ℤ) :
    List (ℕ × ℕ × ℕ) :=
  faces.filter (fun f =>
    decide (f.1 ∈ regionVertexIndices labels idx) &&
    decide (f.2.1 ∈ regionVertexIndices labels idx) &&
    decide (f.2.2 ∈ regionVertexIndices labels idx))

/-- The dict comprehension of line 171,
`{old_idx: new_idx for new_idx, old_idx in enumerate(region_vertex_indices)}`,
as an association list from global vertex index to local index. -/
def vertexMapping (rvi : List ℕ) : List (ℕ × ℕ) :=
  rvi.enum.map (fun p => (p.2, p.1))

/-- Dict lookup through `vertexMapping`.  Front-to-back lookup is the Python
dict lookup here because `np.where` yields strictly increasing, hence
duplicate-free, indices: no key is ever inserted twice. -/
def remapVertex (rvi : List ℕ) (old : ℕ) : ℕ :=
  ((vertexMapping rvi).lookup old).getD 0

/-- Line 172, `vertices[region_vertex_indices]`: the region's own vertex
list. -/
def regionVertices (vertices : List (ℚ × ℚ × ℚ)) (labels : List ℤ) (idx : ℤ) :
    List (ℚ × ℚ × ℚ) :=
  (regionVertexIndices labels idx).map (fun v => vertices.getD v (0, 0, 0))

/-- Line 175: rewrite every surviving triangle's three indices through the
vertex remap. -/
def remappedFaces (labels : List ℤ) (faces : List (ℕ × ℕ × ℕ)) (idx : ℤ) :
    List (ℕ × ℕ × ℕ) :=
  (regionFacesOf labels faces idx).map (fun f =>
    (remapVertex (regionVertexIndices labels idx) f.1,
     remapVertex (regionVertexIndices labels idx) f.2.1,
     remapVertex (regionVertexIndices labels idx) f.2.2))

/-- A vertex index is selected for the region iff it is in range and carries
the region's label. -/
theorem mem_regionVertexIndices (labels : List ℤ) (idx : ℤ) (v : ℕ) :
    v ∈ regionVertexIndices labels idx ↔ v < labels.length ∧ labels.getD v 0 = idx := by
  simp [regionVertexIndices, List.mem_filter, List.mem_range]

/-- The selected-vertices sequence repeats no index. -/
theorem nodup_regionVertexIndices (labels : List ℤ) (idx : ℤ) :
    (regionVertexIndices labels idx).Nodup :=
  (List.nodup_range _).filter _

/-- Looking up the `j`-th element of a duplicate-free list in the
enumerate-built dict yields `n + j` when enumeration starts at `n`. -/
theorem lookup_enumFrom_swap (l : List ℕ) (hl : l.Nodup) :
    ∀ (n j : ℕ) (hj : j < l.length),
      ((l.enumFrom n).map (fun p => (p.2, p.1))).lookup (l.get ⟨j, hj⟩) = some (n + j) := by
  induction l with
  | nil => intro n j hj; simp at hj
  | cons a l ih =>
    intro n j hj
    cases j with
    | zero => simp [List.enumFrom, List.lookup]
    | succ j =>
      have ha : a ∉ l := (List.nodup_cons.mp hl).1
      have hj' : j < l.length := Nat.lt_of_succ_lt_succ hj
      have hget : (a :: l).get ⟨j + 1, hj⟩ = l.get ⟨j, hj'⟩ := rfl
      have hmem : l.get ⟨j, hj'⟩ ∈ l := List.get_mem l _ _
      have hne : (l.get ⟨j, hj'⟩ == a) = false :=
        beq_eq_false_iff_ne.mpr fun h => ha (h ▸ hmem)
      simp only [List.enumFrom, List.map_cons, List.lookup, hget, hne]
      rw [ih (List.nodup_cons.mp hl).2 (n + 1) j hj']
      congr 1
      omega

/-- The remap sends the `j`-th selected vertex to local index `j`. -/
theorem remapVertex_get (labels : List ℤ) (idx : ℤ) (j : ℕ)
    (hj : j < (regionVertexIndices labels idx).length) :
    remapVertex (regionVertexIndices labels idx)
      ((regionVertexIndices labels idx).get ⟨j, hj⟩) = j := by
  unfold remapVertex vertexMapping
  rw [List.enum, lookup_enumFrom_swap _ (nodup_regionVertexIndices labels idx) 0 j hj]
  simp

/-- C4: a triangle of the source mesh is included in region `idx`'s output
iff it is a source triangle all three of whose vertex indices carry label
`idx`; a triangle whose vertices carry two different labels appears in no
region's output; and no triangle appears in two different regions'
outputs. -/
theorem C4_strict_triangle_containment (labels : List ℤ) (faces : List (ℕ × ℕ × ℕ))
    (f : ℕ × ℕ × ℕ) :
    (∀ idx : ℤ, f ∈ regionFacesOf labels faces idx ↔
      f ∈ faces ∧
      (f.1 < labels.length ∧ labels.getD f.1 0 = idx) ∧
      (f.2.1 < labels.length ∧ labels.getD f.2.1 0 = idx) ∧
      (f.2.2 < labels.length ∧ labels.getD f.2.2 0 = idx)) ∧
    ((labels.getD f.1 0 ≠ labels.getD f.2.1 0 ∨
      labels.getD f.2.1 0 ≠ labels.getD f.2.2 0 ∨
      labels.getD f.1 0 ≠ labels.getD f.2.2 0) →
      ∀ idx : ℤ, f ∉ regionFacesOf labels faces idx) ∧
    (∀ idx jdx : ℤ, idx ≠ jdx →
      f ∈ regionFacesOf labels faces idx → f ∉ regionFacesOf labels faces jdx) := by
  have hmem : ∀ idx : ℤ, f ∈ regionFacesOf labels faces idx ↔
      f ∈ faces ∧
      (f.1 < labels.length ∧ labels.getD f.1 0 = idx) ∧
      (f.2.1 < labels.length ∧ labels.getD f.2.1 0 = idx) ∧
      (f.2.2 < labels.length ∧ labels.getD f.2.2 0 = idx) := by
    intro idx
    simp only [regionFacesOf, List.mem_filter, Bool.and_eq_true, decide_eq_true_eq,
      mem_regionVertexIndices]
    tauto
  refine ⟨hmem, ?_, ?_⟩
  · rintro hne idx hf
    rw [hmem idx] at hf
    obtain ⟨-, ⟨-, h1⟩, ⟨-, h2⟩, -, h3⟩ := hf
    rcases hne with h | h | h
    · exact h (h1.trans h2.symm)
    · exact h (h2.trans h3.symm)
    · exact h (h1.trans h3.symm)
  · intro idx jdx hne hf hg
    rw [hmem idx] at hf
    rw [hmem jdx] at hg
    exact hne (hf.2.1.2 ▸ hg.2.1.2)

/-- Rewritten triangle components are remaps of selected vertices, hence in
range of the region's vertex count. -/
theorem remapVertex_lt_of_mem (labels : List ℤ) (idx : ℤ) (v : ℕ)
    (hv : v ∈ regionVertexIndices labels idx) :
    remapVertex (regionVertexIndices labels idx) v
      < (regionVertexIndices labels idx).length := by
  obtain ⟨⟨j, hj⟩, rfl⟩ := List.mem_iff_get.mp hv
  rw [remapVertex_get labels idx j hj]
  exact hj

/-- C9: the vertex remap assigns zero-based local indices in insertion order
of the selected-vertices sequence (the `j`-th selected global vertex maps to
local index `j`), and every component of every rewritten triangle is in
range `[0, region_vertex_count)` of that region's own vertex list. -/
theorem C9_remap_insertion_order_and_range (vertices : List (ℚ × ℚ × ℚ))
    (labels : List ℤ) (faces : List (ℕ × ℕ × ℕ)) (idx : ℤ) :
    (∀ (j : ℕ) (hj : j < (regionVertexIndices labels idx).length),
      remapVertex (regionVertexIndices labels idx)
        ((regionVertexIndices labels idx).get ⟨j, hj⟩) = j) ∧
    (∀ f ∈ remappedFaces labels faces idx,
      f.1 < (regionVertices vertices labels idx).length ∧
      f.2.1 < (regionVertices vertices labels idx).length ∧
      f.2.2 < (regionVertices vertices labels idx).length) := by
  constructor
  · exact remapVertex_get labels idx
  · intro f hf
    simp only [remappedFaces, List.mem_map] at hf
    obtain ⟨g, hg, rfl⟩ := hf
    simp only [regionFacesOf, List.mem_filter, Bool.and_eq_true, decide_eq_true_eq] at hg
    have hlen : (regionVertices vertices labels idx).length
        = (regionVertexIndices labels idx).length := List.length_map _ _
    exact ⟨hlen ▸ remapVertex_lt_of_mem labels idx _ hg.2.1.1,
      hlen ▸ remapVertex_lt_of_mem labels idx _ hg.2.1.2,
      hlen ▸ remapVertex_lt_of_mem labels idx _ hg.2.2⟩

/-- The spec's region-splitter scenario: 10 vertices, vertices 0-4 labelled
region 0 and vertices 5-9 labelled region 1. -/
def demoLabels : List ℤ := [0, 0, 0, 0, 0, 1, 1, 1, 1, 1]

/-- Eight triangles over `demoLabels`: three within region 0, three within
region 1, and two straddling the boundary. -/
def demoFaces : List (ℕ × ℕ × ℕ) :=
  [(0, 1, 2), (1, 2, 3), (2, 3, 4), (5, 6, 7), (6, 7, 8), (7, 8, 9), (4, 5, 6), (3, 4, 5)]

/-- Ten vertex positions for the scenario mesh. -/
def demoVertices : List (ℚ × ℚ × ℚ) := List.replicate 10 ((0 : ℚ), (0 : ℚ), (0 : ℚ))

/-- Witness for `C4_strict_triangle_containment`: in the scenario mesh,
triangle `(0,1,2)` lies in region 0's output and, region indices 0 and 1
being different, not in region 1's; the straddling triangle `(4,5,6)` is in
neither region's output. -/
theorem C4_strict_triangle_containment_witness :
    ((0, 1, 2) ∈ regionFacesOf demoLabels demoFaces 0) ∧ ((0 : ℤ) ≠ 1) ∧
    ((0, 1, 2) ∉ regionFacesOf demoLabels demoFaces 1) ∧
    (demoLabels.getD 4 0 ≠ demoLabels.getD 5 0) ∧
    ((4, 5, 6) ∉ regionFacesOf demoLabels demoFaces 0) ∧
    ((4, 5, 6) ∉ regionFacesOf demoLabels demoFaces 1) :=
  ⟨by decide, by decide,
    (C4_strict_triangle_containment demoLabels demoFaces (0, 1, 2)).2.2 0 1
      (by decide) (by decide),
    by decide,
    (C4_strict_triangle_containment demoLabels demoFaces (4, 5, 6)).2.1
      (Or.inl (by decide)) 0,
    (C4_strict_triangle_containment demoLabels demoFaces (4, 5, 6)).2.1
      (Or.inl (by decide)) 1⟩

/-- Witness for `C9_remap_insertion_order_and_range`: in the scenario mesh,
the second selected vertex of region 0 maps to local index 1, and the
remapped triangle `(0,1,2)` has all components below region 0's vertex
count. -/
theorem C9_remap_insertion_order_and_range_witness :
    (1 < (regionVertexIndices demoLabels 0).length) ∧
    remapVertex (regionVertexIndices demoLabels 0)
      ((regionVertexIndices demoLabels 0).get ⟨1, by decide⟩) = 1 ∧
    ((0, 1, 2) ∈ remappedFaces demoLabels demoFaces 0) ∧
    ((0 : ℕ) < (regionVertices demoVertices demoLabels 0).length ∧
     (1 : ℕ) < (regionVertices demoVertices demoLabels 0).length ∧
     (2 : ℕ) < (regionVertices demoVertices demoLabels 0).length) :=
  ⟨by decide,
    (C9_remap_insertion_order_and_range demoVertices demoLabels demoFaces 0).1 1 (by decide),
    by decide,
    (C9_remap_insertion_order_and_range demoVertices demoLabels demoFaces 0).2 (0, 1, 2)
      (by decide)⟩

/-! ## Postprocessing orchestration (`_marching_cubes_mesh`, lines 306-328)

`measure.marching_cubes`, `mesh.invert()`, `filter_taubin` and
`simplify_quadric_decimation` are external library calls; the orchestration
around them — inversion always, smoothing when requested, and the
`try/except` that logs a decimation failure and keeps the smoothed mesh — is
translated here with those collaborators as parameters.  A fallible
decimation is an `Except`: `.error` is the raised exception that the
`except` block of lines 325-326 swallows. -/

/-- Lines 306-328: marching-cubes extraction, unconditional normal
inversion, optional Taubin smoothing, then decimation whose failure is
caught and recovered by keeping the un-decimated mesh.  The return type is
`Mesh`, not `Except`: no failure escapes this function. -/
def marchingCubesPipeline (marchingCubes : List Bool → Mesh) (invert : Mesh → Mesh)
    (filterTaubin : Mesh → Mesh) (decimate : Mesh → Except String Mesh)
    (mask : List Bool) (smoothing : Bool) : Mesh :=
  let mesh := marchingCubes mask
  let mesh := invert mesh
  if smoothing then
    let mesh := filterTaubin mesh
    match decimate mesh with
    | .ok simplified => simplified
    | .error _ => mesh
  else mesh

/-- C8: when decimation fails, postprocessing returns the smoothed but
un-decimated mesh — the inverted, Taubin-smoothed extraction result,
untouched by the failed step — and returns it normally (the pipeline's type
is total: no error propagates out of the per-structure conversion). -/
theorem C8_decimation_failure_recovered (marchingCubes : List Bool → Mesh)
    (invert : Mesh → Mesh) (filterTaubin : Mesh → Mesh)
    (decimate : Mesh → Except String Mesh) (mask : List Bool) (e : String)
    (hfail : decimate (filterTaubin (invert (marchingCubes mask))) = .error e) :
    marchingCubesPipeline marchingCubes invert filterTaubin decimate mask true
      = filterTaubin (invert (marchingCubes mask)) := by
  simp only [marchingCubesPipeline, if_pos, hfail]

/-- Witness for `C8_decimation_failure_recovered`: a decimator that always
fails (the missing `fast-simplification` accelerator) leaves the smoothed
mesh intact. -/
theorem C8_decimation_failure_recovered_witness :
    ((fun _ : Mesh => (Except.error "no fast-simplification" : Except String Mesh))
        (Mesh.mk [(0, 0, 0)] [(0, 0, 0)])
      = .error "no fast-simplification") ∧
    marchingCubesPipeline (fun _ => Mesh.mk [(0, 0, 0)] [(0, 0, 0)])
      (fun m => Mesh.mk m.vertices (m.faces.map (fun f => (f.1, f.2.2, f.2.1))))
      (fun m => m) (fun _ => .error "no fast-simplification") [true] true
      = Mesh.mk [(0, 0, 0)] [(0, 0, 0)] :=
  ⟨rfl,
    C8_decimation_failure_recovered (fun _ => Mesh.mk [(0, 0, 0)] [(0, 0, 0)])
      (fun m => Mesh.mk m.vertices (m.faces.map (fun f => (f.1, f.2.2, f.2.1))))
      (fun m => m) (fun _ => .error "no fast-simplification") [true]
      "no fast-simplification" rfl⟩

/-! ## Gradient-refined extraction (`_dual_contouring_mesh`, lines 330-373)

The provisional marching-cubes pass and the sobel filters are external
library calls; the vertex-refinement loop of lines 349-363 is translated
per vertex.  Float arithmetic is modelled over `ℝ`.  The three gradient
fields (`grad_x`, `grad_y`, `grad_z`) are parameters: both the code and the
claim read the same precomputed fields. -/

/-- NumPy's `astype(int)` float-to-integer cast: truncation toward zero
(line 351). -/
noncomputable def truncInt (x : ℝ) : ℤ := if 0 ≤ x then ⌊x⌋ else ⌈x⌉

/-- One axis of `np.clip(vox_coord, [0,0,0], np.array(mask.shape) - 1)`
(line 352). -/
def clipIdx (dim : ℕ) (c : ℤ) : ℤ := max 0 (min c ((dim : ℤ) - 1))

/-- Lines 351-352: the voxel at which the gradient is sampled — the
truncated (`astype(int)`) coordinates of the provisional vertex, clamped to
grid bounds. -/
noncomputable def sampleVoxel (shape : ℕ × ℕ × ℕ) (v : ℝ × ℝ × ℝ) : ℤ × ℤ × ℤ :=
  (clipIdx shape.1 (truncInt v.1), clipIdx shape.2.1 (truncInt v.2.1),
   clipIdx shape.2.2 (truncInt v.2.2))

/-- `np.sqrt(gx**2 + gy**2 + gz**2)` (line 358). -/
noncomputable def norm3 (x y z : ℝ) : ℝ := Real.sqrt (x ^ 2 + y ^ 2 + z ^ 2)

/-- Lines 349-363, the body of the refinement loop for one provisional
vertex: sample the gradient at the clamped truncated voxel coordinate and,
when its magnitude exceeds 0.1, displace the vertex by
`grad_norm * 0.5`. -/
noncomputable def refineVertex (shape : ℕ × ℕ × ℕ) (gradX gradY gradZ : ℤ × ℤ × ℤ → ℝ)
    (v : ℝ × ℝ × ℝ) : ℝ × ℝ × ℝ :=
  let c := sampleVoxel shape v
  let gx := gradX c
  let gy := gradY c
  let gz := gradZ c
  let gradMag := norm3 gx gy gz
  if 0.1 < gradMag then
    (v.1 + gx / gradMag * 0.5, v.2.1 + gy / gradMag * 0.5, v.2.2 + gz / gradMag * 0.5)
  else v

/-- The whole refinement pass: every provisional marching-cubes vertex is
refined independently. -/
noncomputable def dualContourRefine (shape : ℕ × ℕ × ℕ)
    (gradX gradY gradZ : ℤ × ℤ × ℤ → ℝ) (verts : List (ℝ × ℝ × ℝ)) :
    List (ℝ × ℝ × ℝ) :=
  verts.map (refineVertex shape gradX gradY gradZ)

/-- Modelled from the spec: the claim's reading of the sampling coordinate,
the *nearest* integer voxel coordinate (rounding), clamped to grid
bounds. -/
noncomputable def specSampleVoxel (shape : ℕ × ℕ × ℕ) (v : ℝ × ℝ × ℝ) : ℤ × ℤ × ℤ :=
  (clipIdx shape.1 (round v.1), clipIdx shape.2.1 (round v.2.1),
   clipIdx shape.2.2 (round v.2.2))

/-- Modelled from the spec: the refinement step as the claim states it,
identical to `refineVertex` except that the gradient is sampled at the
nearest integer voxel coordinate. -/
noncomputable def specRefineVertex (shape : ℕ × ℕ × ℕ)
    (gradX gradY gradZ : ℤ × ℤ × ℤ → ℝ) (v : ℝ × ℝ × ℝ) : ℝ × ℝ × ℝ :=
  let c := specSampleVoxel shape v
  let gx := gradX c
  let gy := gradY c
  let gz := gradZ c
  let gradMag := norm3 gx gy gz
  if 0.1 < gradMag then
    (v.1 + gx / gradMag * 0.5, v.2.1 + gy / gradMag * 0.5, v.2.2 + gz / gradMag * 0.5)
  else v

/-- An x-gradient field that is 0.3 at voxel (2,0,0) and zero elsewhere. -/
noncomputable def cexGradX : ℤ × ℤ × ℤ → ℝ := fun c => if c = (2, 0, 0) then 0.3 else 0

/-- An everywhere-zero y-gradient field. -/
noncomputable def cexGradY : ℤ × ℤ × ℤ → ℝ := fun _ => 0

/-- An everywhere-zero z-gradient field. -/
noncomputable def cexGradZ : ℤ × ℤ × ℤ → ℝ := fun _ => 0

/-- The gradient magnitude of the zero vector is zero. -/
theorem norm3_zero : norm3 0 0 0 = 0 := by
  rw [norm3, show (0 : ℝ) ^ 2 + 0 ^ 2 + 0 ^ 2 = 0 by ring, Real.sqrt_zero]

/-- The gradient magnitude of (0.3, 0, 0) is 0.3. -/
theorem norm3_03 : norm3 0.3 0 0 = 0.3 := by
  rw [norm3, show (0.3 : ℝ) ^ 2 + 0 ^ 2 + 0 ^ 2 = 0.3 ^ 2 by ring,
    Real.sqrt_sq (by norm_num)]

/-- The code samples the vertex (1.7, 0, 0) at voxel (1, 0, 0): truncation,
not rounding. -/
theorem cex_sampleVoxel : sampleVoxel (4, 4, 4) ((1.7 : ℝ), 0, 0) = (1, 0, 0) := by
  have h1 : truncInt (1.7 : ℝ) = 1 := by
    rw [truncInt, if_pos (by norm_num)]
    norm_num [Int.floor_eq_iff]
  have h0 : truncInt (0 : ℝ) = 0 := by
    rw [truncInt, if_pos le_rfl]
    simp
  simp [sampleVoxel, h1, h0, clipIdx]

/-- The claim's nearest-integer sampling puts (1.7, 0, 0) at voxel
(2, 0, 0). -/
theorem cex_specSampleVoxel : specSampleVoxel (4, 4, 4) ((1.7 : ℝ), 0, 0) = (2, 0, 0) := by
  have h1 : round (1.7 : ℝ) = 2 := by
    rw [round_eq]
    norm_num [Int.floor_eq_iff]
  have h0 : round (0 : ℝ) = 0 := by simp
  simp [specSampleVoxel, h1, h0, clipIdx]

/-- The counterexample gradient field vanishes at voxel (1,0,0). -/
theorem cexGradX_at_1 : cexGradX (1, 0, 0) = 0 := by norm_num [cexGradX]

/-- The counterexample gradient field is 0.3 at voxel (2,0,0). -/
theorem cexGradX_at_2 : cexGradX (2, 0, 0) = 0.3 := by norm_num [cexGradX]

/-- C7, counterexample: the code samples the gradient at the *truncated*
(`astype(int)`) voxel coordinate, not the nearest one.  For the provisional
vertex (1.7, 0, 0) over a gradient field that vanishes at voxel (1,0,0) but
is (0.3, 0, 0) at voxel (2,0,0), the code leaves the vertex at (1.7, 0, 0)
while the claim's nearest-integer reading displaces it to (2.2, 0, 0). -/
theorem C7_counterexample :
    refineVertex (4, 4, 4) cexGradX cexGradY cexGradZ ((1.7 : ℝ), 0, 0)
      ≠ specRefineVertex (4, 4, 4) cexGradX cexGradY cexGradZ ((1.7 : ℝ), 0, 0) := by
  have hlhs : refineVertex (4, 4, 4) cexGradX cexGradY cexGradZ ((1.7 : ℝ), 0, 0)
      = ((1.7 : ℝ), 0, 0) := by
    rw [refineVertex, cex_sampleVoxel]
    simp only [cexGradX_at_1, cexGradY, cexGradZ]
    rw [norm3_zero, if_neg (by norm_num)]
  have hrhs : specRefineVertex (4, 4, 4) cexGradX cexGradY cexGradZ ((1.7 : ℝ), 0, 0)
      = ((2.2 : ℝ), 0, 0) := by
    rw [specRefineVertex, cex_specSampleVoxel]
    simp only [cexGradX_at_2, cexGradY, cexGradZ]
    rw [norm3_03, if_pos (by norm_num)]
    norm_num
  rw [hlhs, hrhs]
  intro h
  have h1 := congrArg Prod.fst h
  norm_num at h1

/-- C7, amended: each provisional vertex samples the gradient at its
*truncated* (`astype(int)`, floor for the non-negative coordinates that
marching cubes produces) integer voxel coordinate clamped to grid bounds;
exactly when the sampled gradient magnitude exceeds 0.1, the vertex is
displaced along the normalized gradient direction and the displacement has
length exactly 0.5 voxel units; a vertex whose sampled gradient magnitude is
at most 0.1 is left unchanged. -/
theorem C7_gradient_refinement (shape : ℕ × ℕ × ℕ) (gradX gradY gradZ : ℤ × ℤ × ℤ → ℝ)
    (v : ℝ × ℝ × ℝ) :
    (norm3 (gradX (sampleVoxel shape v)) (gradY (sampleVoxel shape v))
        (gradZ (sampleVoxel shape v)) ≤ 0.1 →
      refineVertex shape gradX gradY gradZ v = v) ∧
    (0.1 < norm3 (gradX (sampleVoxel shape v)) (gradY (sampleVoxel shape v))
        (gradZ (sampleVoxel shape v)) →
      refineVertex shape gradX gradY gradZ v
        = (v.1 + gradX (sampleVoxel shape v)
              / norm3 (gradX (sampleVoxel shape v)) (gradY (sampleVoxel shape v))
                  (gradZ (sampleVoxel shape v)) * 0.5,
           v.2.1 + gradY (sampleVoxel shape v)
              / norm3 (gradX (sampleVoxel shape v)) (gradY (sampleVoxel shape v))
                  (gradZ (sampleVoxel shape v)) * 0.5,
           v.2.2 + gradZ (sampleVoxel shape v)
              / norm3 (gradX (sampleVoxel shape v)) (gradY (sampleVoxel shape v))
                  (gradZ (sampleVoxel shape v)) * 0.5) ∧
      norm3 ((refineVertex shape gradX gradY gradZ v).1 - v.1)
        ((refineVertex shape gradX gradY gradZ v).2.1 - v.2.1)
        ((refineVertex shape gradX gradY gradZ v).2.2 - v.2.2) = 0.5) := by
  set gx := gradX (sampleVoxel shape v)
  set gy := gradY (sampleVoxel shape v)
  set gz := gradZ (sampleVoxel shape v)
  set m := norm3 gx gy gz with hm
  constructor
  · intro hle
    rw [refineVertex]
    simp only [← hm]
    rw [if_neg (not_lt.mpr hle)]
  · intro hlt
    have hmpos : 0 < m := lt_trans (by norm_num) hlt
    have hmne : m ≠ 0 := ne_of_gt hmpos
    have heq : refineVertex shape gradX gradY gradZ v
        = (v.1 + gx / m * 0.5, v.2.1 + gy / m * 0.5, v.2.2 + gz / m * 0.5) := by
      rw [refineVertex]
      simp only [← hm]
      rw [if_pos hlt]
    refine ⟨heq, ?_⟩
    rw [heq]
    simp only
    have hsum : (v.1 + gx / m * 0.5 - v.1) ^ 2 + (v.2.1 + gy / m * 0.5 - v.2.1) ^ 2
        + (v.2.2 + gz / m * 0.5 - v.2.2) ^ 2
        = (0.5 / m) ^ 2 * (gx ^ 2 + gy ^ 2 + gz ^ 2) := by ring
    rw [norm3, hsum, Real.sqrt_mul (sq_nonneg _), Real.sqrt_sq_eq_abs,
      abs_of_pos (by positivity)]
    have hsq : Real.sqrt (gx ^ 2 + gy ^ 2 + gz ^ 2) = m := rfl
    rw [hsq, div_mul_cancel₀ _ hmne]

/-- A constant x-gradient field of magnitude 0.3, for the witness. -/
noncomputable def wGradX : ℤ × ℤ × ℤ → ℝ := fun _ => 0.3

/-- Witness for `C7_gradient_refinement`: under the constant gradient field
(0.3, 0, 0), whose magnitude 0.3 exceeds the threshold, the vertex
(0, 0, 0) is displaced to (0.5, 0, 0) — a displacement of exactly 0.5. -/
theorem C7_gradient_refinement_witness :
    (0.1 < norm3 (wGradX (sampleVoxel (4, 4, 4) ((0 : ℝ), 0, 0)))
        (cexGradY (sampleVoxel (4, 4, 4) ((0 : ℝ), 0, 0)))
        (cexGradZ (sampleVoxel (4, 4, 4) ((0 : ℝ), 0, 0)))) ∧
    refineVertex (4, 4, 4) wGradX cexGradY cexGradZ ((0 : ℝ), 0, 0) = ((0.5 : ℝ), 0, 0) ∧
    norm3 ((refineVertex (4, 4, 4) wGradX cexGradY cexGradZ ((0 : ℝ), 0, 0)).1 - 0)
      ((refineVertex (4, 4, 4) wGradX cexGradY cexGradZ ((0 : ℝ), 0, 0)).2.1 - 0)
      ((refineVertex (4, 4, 4) wGradX cexGradY cexGradZ ((0 : ℝ), 0, 0)).2.2 - 0)
      = 0.5 := by
  have hmag : norm3 (wGradX (sampleVoxel (4, 4, 4) ((0 : ℝ), 0, 0)))
      (cexGradY (sampleVoxel (4, 4, 4) ((0 : ℝ), 0, 0)))
      (cexGradZ (sampleVoxel (4, 4, 4) ((0 : ℝ), 0, 0))) = 0.3 := norm3_03
  have h := (C7_gradient_refinement (4, 4, 4) wGradX cexGradY cexGradZ ((0 : ℝ), 0, 0)).2
    (by rw [hmag]; norm_num)
  refine ⟨by rw [hmag]; norm_num, ?_, h.2⟩
  rw [h.1, hmag]
  norm_num [wGradX, cexGradY, cexGradZ]

/-! ## The OBJ text writer and its round-trip (C10)

`convert_parcellated_regions` writes each region mesh as comment header
lines, one `v x y z` line per vertex (6 decimal digits) and one `f a b c`
line per triangle with 1-based indices (lines 179-189);
`convert_surface_to_obj` writes the same `v`/`f` format with a different
comment header after pre-incrementing the face indices (lines 74 and
81-91).  The file is modelled as its list of lines; re-parsing splits lines
by their `v`/`f` prefix and converts the 1-based face indices back to
0-based. -/

/-- The decimal digit characters of `n`, most significant first — the
characters of Python's `str(n)`. -/
def natDigitChars (n : ℕ) : List Char :=
  if n = 0 then ['0'] else (Nat.digits 10 n).reverse.map Nat.digitChar

/-- Python's `str` on a natural number. -/
def natToStr (n : ℕ) : String := ⟨natDigitChars n⟩

/-- The numeric value of a digit character. -/
def charDigit (c : Char) : ℕ := c.toNat - 48

/-- Parse a digit string back to a natural number. -/
def charsToNat (cs : List Char) : ℕ := cs.foldl (fun a c => 10 * a + charDigit c) 0

/-- Digit characters decode to their digit. -/
theorem digitChar_charDigit {d : ℕ} (h : d < 10) : charDigit (Nat.digitChar d) = d := by
  interval_cases d <;> rfl

/-- Digit characters satisfy `Char.isDigit`. -/
theorem digitChar_isDigit {d : ℕ} (h : d < 10) : (Nat.digitChar d).isDigit = true := by
  interval_cases d <;> rfl

/-- A rendered number is never the empty string. -/
theorem natDigitChars_ne_nil (n : ℕ) : natDigitChars n ≠ [] := by
  rw [natDigitChars]
  split
  · simp
  · simp [Nat.digits_ne_nil_iff_ne_zero, *]

/-- Every character of a rendered number is a digit. -/
theorem natDigitChars_all_digits (n : ℕ) : ∀ c ∈ natDigitChars n, c.isDigit = true := by
  rw [natDigitChars]
  split
  · intro c hc
    simp at hc
    subst hc
    rfl
  · intro c hc
    simp only [List.mem_map, List.mem_reverse] at hc
    obtain ⟨d, hd, rfl⟩ := hc
    exact digitChar_isDigit (Nat.digits_lt_base (by norm_num) hd)

/-- Folding the decoder over reversed digit characters recovers
`Nat.ofDigits`. -/
theorem charsToNat_rev_digits (L : List ℕ) (h : ∀ d ∈ L, d < 10) :
    charsToNat (L.reverse.map Nat.digitChar) = Nat.ofDigits 10 L := by
  induction L with
  | nil => rfl
  | cons d L ih =>
    have hd : d < 10 := h d (List.mem_cons_self d L)
    have hL : ∀ x ∈ L, x < 10 := fun x hx => h x (List.mem_cons_of_mem d hx)
    rw [List.reverse_cons, List.map_append, List.map_singleton]
    rw [charsToNat, List.foldl_append]
    rw [show ∀ acc, List.foldl (fun a c => 10 * a + charDigit c) acc [Nat.digitChar d]
      = 10 * acc + charDigit (Nat.digitChar d) from fun acc => rfl]
    rw [digitChar_charDigit hd]
    rw [show List.foldl (fun a c => 10 * a + charDigit c) 0 (L.reverse.map Nat.digitChar)
      = charsToNat (L.reverse.map Nat.digitChar) from rfl, ih hL]
    rw [Nat.ofDigits_cons]
    ring

/-- Decimal rendering of a natural number round-trips. -/
theorem charsToNat_natDigitChars (n : ℕ) : charsToNat (natDigitChars n) = n := by
  rw [natDigitChars]
  split
  · subst_vars
    rfl
  · rw [charsToNat_rev_digits _ (fun d hd => Nat.digits_lt_base (by norm_num) hd),
      Nat.ofDigits_digits]

/-- Consume a maximal non-empty digit run from the front of a line. -/
def parseNatToken (cs : List Char) : Option (ℕ × List Char) :=
  let ds := cs.takeWhile Char.isDigit
  if ds.isEmpty then none else some (charsToNat ds, cs.dropWhile Char.isDigit)

/-- A rendered number followed by a non-digit suffix tokenizes to the number
and the suffix. -/
theorem parseNatToken_append (n : ℕ) (rest : List Char)
    (h : rest.takeWhile Char.isDigit = []) :
    parseNatToken (natDigitChars n ++ rest) = some (n, rest) := by
  have htake : (natDigitChars n ++ rest).takeWhile Char.isDigit = natDigitChars n := by
    rw [List.takeWhile_append_of_pos (natDigitChars_all_digits n), h, List.append_nil]
  have hdrop : (natDigitChars n ++ rest).dropWhile Char.isDigit = rest := by
    rw [List.dropWhile_append_of_pos (natDigitChars_all_digits n)]
    have h2 := List.takeWhile_append_dropWhile Char.isDigit rest
    rw [h] at h2
    simpa using h2
  have hne : (natDigitChars n).isEmpty = false := by
    cases he : natDigitChars n with
    | nil => exact absurd he (natDigitChars_ne_nil n)
    | cons c cs => rfl
  rw [parseNatToken]
  simp only [htake, hdrop, hne, Bool.false_eq_true, if_false,
    charsToNat_natDigitChars]

/-- Consume the single separating space between face indices. -/
def expectSpace : List Char → Option (List Char)
  | ' ' :: rest => some rest
  | _ => none

/-- Parse the characters of an `f a b c` line: three 1-based indices
separated by single spaces, converted back to 0-based. -/
def parseFChars (cs : List Char) : Option (ℕ × ℕ × ℕ) :=
  match cs with
  | 'f' :: ' ' :: rest =>
    match parseNatToken rest with
    | some (n1, rest1) =>
      match expectSpace rest1 with
      | some rest2 =>
        match parseNatToken rest2 with
        | some (n2, rest3) =>
          match expectSpace rest3 with
          | some rest4 =>
            match parseNatToken rest4 with
            | some (n3, rest5) =>
              if rest5.isEmpty then some (n1 - 1, n2 - 1, n3 - 1) else none
            | none => none
          | none => none
        | none => none
      | none => none
    | none => none
  | _ => none

/-- A space stops a digit run. -/
theorem space_not_digit_takeWhile (l : List Char) :
    (' ' :: l).takeWhile Char.isDigit = [] := by
  rw [List.takeWhile_cons_of_neg]
  decide

/-- A bare rendered number tokenizes to the number and an empty suffix. -/
theorem parseNatToken_digits (n : ℕ) : parseNatToken (natDigitChars n) = some (n, []) := by
  have h := parseNatToken_append n [] rfl
  rwa [List.append_nil] at h

/-- Parsing the characters of a written face line recovers the 0-based
triple. -/
theorem parseFChars_fLine (a b c : ℕ) :
    parseFChars ('f' :: ' ' :: (natDigitChars (a + 1)
        ++ (' ' :: (natDigitChars (b + 1) ++ (' ' :: natDigitChars (c + 1))))))
      = some (a, b, c) := by
  rw [parseFChars]
  rw [parseNatToken_append _ _ (space_not_digit_takeWhile _)]
  simp only [expectSpace]
  rw [parseNatToken_append _ _ (space_not_digit_takeWhile _)]
  simp only [expectSpace]
  rw [parseNatToken_digits]
  simp

/-- The `%.6f` rendering of lines 87 and 185: optional sign, integer part,
a dot and a six-digit zero-padded fractional part.  (Python rounds the
underlying binary float to the nearest 6-decimal value; on our exact
rationals ties round half away from zero — the difference never affects
line structure.) -/
def fmt6 (q : ℚ) : String :=
  (if q < 0 then "-" else "")
    ++ natToStr ((round (|q| * 1000000) : ℤ).toNat / 1000000)
    ++ "."
    ++ ⟨List.replicate
          (6 - (natDigitChars ((round (|q| * 1000000) : ℤ).toNat % 1000000)).length) '0'⟩
    ++ natToStr ((round (|q| * 1000000) : ℤ).toNat % 1000000)

/-- Line 185: `f"v {v[0]:.6f} {v[1]:.6f} {v[2]:.6f}"`. -/
def vLine (v : ℚ × ℚ × ℚ) : String :=
  "v " ++ fmt6 v.1 ++ " " ++ fmt6 v.2.1 ++ " " ++ fmt6 v.2.2

/-- Line 189: `f"f {face[0]+1} {face[1]+1} {face[2]+1}"` — 1-based OBJ
indices from the 0-based mesh triangle. -/
def fLine (f : ℕ × ℕ × ℕ) : String :=
  "f " ++ natToStr (f.1 + 1) ++ " " ++ natToStr (f.2.1 + 1) ++ " " ++ natToStr (f.2.2 + 1)

/-- Line 91: `f"f {face[0]} {face[1]} {face[2]}"`, used on indices already
incremented at line 74. -/
def fLinePre (f : ℕ × ℕ × ℕ) : String :=
  "f " ++ natToStr f.1 ++ " " ++ natToStr f.2.1 ++ " " ++ natToStr f.2.2

/-- The region writer of lines 179-189: two comment lines, a blank line,
the vertex lines, then the face lines. -/
def writeObjLines (regionName hemisphere : String) (mesh : Mesh) : List String :=
  ("# Region: " ++ regionName) :: ("# Hemisphere: " ++ hemisphere) :: "" ::
    (mesh.vertices.map vLine ++ mesh.faces.map fLine)

/-- The surface writer of lines 74 and 81-91: its own comment header, then
the same `v`/`f` lines, the face indices having been incremented up
front (`faces = faces + 1`). -/
def writeSurfaceObjLines (sourceName : String) (mesh : Mesh) : List String :=
  "# OBJ file generated from FreeSurfer surface" :: ("# Source: " ++ sourceName) :: "" ::
    (mesh.vertices.map vLine
      ++ (mesh.faces.map (fun f => (f.1 + 1, f.2.1 + 1, f.2.2 + 1))).map fLinePre)

/-- A line is a vertex line iff it starts with the `v ` prefix. -/
def isVLine (s : String) : Bool :=
  match s.data with
  | 'v' :: ' ' :: _ => true
  | _ => false

/-- Parse a face line by its `f ` prefix; anything else is `none`. -/
def parseFLine (s : String) : Option (ℕ × ℕ × ℕ) := parseFChars s.data

/-- Re-parse a written file: the vertex count is the number of `v`-prefixed
lines, and the triangles are the parsed `f`-prefixed lines. -/
def parseObjLines (ls : List String) : ℕ × List (ℕ × ℕ × ℕ) :=
  (ls.countP isVLine, ls.filterMap parseFLine)

/-- Vertex lines carry the `v ` prefix. -/
theorem isVLine_vLine (v : ℚ × ℚ × ℚ) : isVLine (vLine v) = true := rfl

/-- Face lines do not carry the `v ` prefix. -/
theorem isVLine_fLine (f : ℕ × ℕ × ℕ) : isVLine (fLine f) = false := rfl

/-- Region-header lines are not vertex lines. -/
theorem isVLine_region (r : String) : isVLine ("# Region: " ++ r) = false := rfl

/-- Hemisphere-header lines are not vertex lines. -/
theorem isVLine_hemi (r : String) : isVLine ("# Hemisphere: " ++ r) = false := rfl

/-- The surface writer's first header line is not a vertex line. -/
theorem isVLine_objhdr : isVLine "# OBJ file generated from FreeSurfer surface" = false := rfl

/-- Source-header lines are not vertex lines. -/
theorem isVLine_source (r : String) : isVLine ("# Source: " ++ r) = false := rfl

/-- The blank separator line is not a vertex line. -/
theorem isVLine_blank : isVLine "" = false := rfl

/-- Vertex lines do not parse as faces. -/
theorem parseFLine_vLine (v : ℚ × ℚ × ℚ) : parseFLine (vLine v) = none := rfl

/-- Region-header lines do not parse as faces. -/
theorem parseFLine_region (r : String) : parseFLine ("# Region: " ++ r) = none := rfl

/-- Hemisphere-header lines do not parse as faces. -/
theorem parseFLine_hemi (r : String) : parseFLine ("# Hemisphere: " ++ r) = none := rfl

/-- The surface writer's first header line does not parse as a face. -/
theorem parseFLine_objhdr :
    parseFLine "# OBJ file generated from FreeSurfer surface" = none := rfl

/-- Source-header lines do not parse as faces. -/
theorem parseFLine_source (r : String) : parseFLine ("# Source: " ++ r) = none := rfl

/-- The blank separator line does not parse as a face. -/
theorem parseFLine_blank : parseFLine "" = none := rfl

/-- The characters of a written face line, fully unfolded. -/
theorem fLine_data (f : ℕ × ℕ × ℕ) :
    (fLine f).data = 'f' :: ' ' :: (natDigitChars (f.1 + 1)
      ++ (' ' :: (natDigitChars (f.2.1 + 1) ++ (' ' :: natDigitChars (f.2.2 + 1))))) := by
  simp [fLine, natToStr, String.data_append, List.append_assoc]

/-- Parsing a written face line recovers the original 0-based triangle. -/
theorem parseFLine_fLine (f : ℕ × ℕ × ℕ) : parseFLine (fLine f) = some f := by
  rw [parseFLine, fLine_data, parseFChars_fLine]

/-- A `filterMap` whose function is `some` on every element is the
identity. -/
theorem filterMap_some_id {α : Type} (g : α → Option α) (l : List α)
    (h : ∀ x ∈ l, g x = some x) : l.filterMap g = l := by
  induction l with
  | nil => rfl
  | cons x l ih =>
    rw [List.filterMap_cons, h x (List.mem_cons_self x l),
      ih fun y hy => h y (List.mem_cons_of_mem x hy)]

/-- Re-parsing any file of the writers' shape — two non-`v`/`f` header
lines, a blank line, vertex lines, face lines — recovers the vertex count
and the exact triangle list. -/
theorem parseObjLines_shape (h1 h2 : String)
    (hv1 : isVLine h1 = false) (hv2 : isVLine h2 = false)
    (hf1 : parseFLine h1 = none) (hf2 : parseFLine h2 = none)
    (verts : List (ℚ × ℚ × ℚ)) (faces : List (ℕ × ℕ × ℕ)) :
    parseObjLines (h1 :: h2 :: "" :: (verts.map vLine ++ faces.map fLine))
      = (verts.length, faces) := by
  rw [parseObjLines]
  have hcount : List.countP isVLine
      (h1 :: h2 :: "" :: (verts.map vLine ++ faces.map fLine)) = verts.length := by
    rw [List.countP_cons_of_neg _ _ (by rw [hv1]; simp),
      List.countP_cons_of_neg _ _ (by rw [hv2]; simp),
      List.countP_cons_of_neg _ _ (by rw [isVLine_blank]; simp),
      List.countP_append]
    rw [List.countP_map, List.countP_map]
    rw [show List.countP (isVLine ∘ vLine) verts = verts.length from
      List.countP_eq_length.mpr fun v _ => isVLine_vLine v]
    rw [show List.countP (isVLine ∘ fLine) faces = 0 from
      List.countP_eq_zero.mpr fun f _ => by simp [Function.comp, isVLine_fLine]]
    rw [Nat.add_zero]
  have hfaces : List.filterMap parseFLine
      (h1 :: h2 :: "" :: (verts.map vLine ++ faces.map fLine)) = faces := by
    rw [List.filterMap_cons_none hf1, List.filterMap_cons_none hf2,
      List.filterMap_cons_none parseFLine_blank,
      List.filterMap_append, List.filterMap_map, List.filterMap_map]
    rw [show List.filterMap (parseFLine ∘ vLine) verts = [] from
      List.filterMap_eq_nil_iff.mpr fun v _ => parseFLine_vLine v]
    rw [List.nil_append]
    exact filterMap_some_id _ _ fun f _ => parseFLine_fLine f
  rw [hcount, hfaces]

/-- C10: for every mesh, writing it with either OBJ writer (one `v x y z`
line per vertex with 6 decimal digits, one `f a b c` line per triangle with
1-based indices) and re-parsing the text by line prefix, converting the
1-based indices back to 0-based, reproduces the vertex count, the triangle
count, and every triangle's index triple exactly. -/
theorem C10_write_parse_roundtrip (regionName hemisphere sourceName : String)
    (mesh : Mesh) :
    parseObjLines (writeObjLines regionName hemisphere mesh)
      = (mesh.vertices.length, mesh.faces) ∧
    parseObjLines (writeSurfaceObjLines sourceName mesh)
      = (mesh.vertices.length, mesh.faces) := by
  constructor
  · exact parseObjLines_shape _ _ (isVLine_region regionName) (isVLine_hemi hemisphere)
      (parseFLine_region regionName) (parseFLine_hemi hemisphere) mesh.vertices mesh.faces
  · rw [writeSurfaceObjLines, List.map_map]
    exact parseObjLines_shape _ _ isVLine_objhdr (isVLine_source sourceName)
      parseFLine_objhdr (parseFLine_source sourceName) mesh.vertices mesh.faces

end BrainViewer
